import Mathlib

/-!
Verification of the frame-analysis pipeline of `src/components/LivenessDetector.tsx`:
skin-color pixel classification (`getSkinColorConfidence`), stride-2 sampling and
clustering into a face-region estimate (`clusterSkinPixels` and the surrounding code of
`detectFaceInImageData`), orientation inference (`detectFaceOrientation`) and temporal
smoothing (`temporalSmoothing`).

Modelling conventions: JavaScript numbers are modelled by exact rationals `ℚ` except for
the transcendental recency weight `Math.exp`, which is modelled by `Real.exp`; byte
values read from the `Uint8ClampedArray` are `ℕ`.  The two ratio divisions of
`detectFaceOrientation`, whose denominators can be `0`, are modelled by a dedicated
`JsNum` type so that the JavaScript results `NaN` and `Infinity` (and their comparison
behaviour) are represented faithfully instead of Lean's `x / 0 = 0` convention.
-/

set_option maxRecDepth 100000

namespace Liveness


/-- Face orientation labels, from the `FaceOrientation` union type (line 8). -/
inductive FaceOrientation where
  | straight
  | left
  | right
  | none
deriving DecidableEq

/-- Sampled skin pixel: frame coordinate plus classifier confidence (line 103). -/
structure SkinPixel where
  x : ℕ
  y : ℕ
  intensity : ℚ
deriving DecidableEq

/-- Face region cluster produced by `clusterSkinPixels` (lines 207-214). -/
structure FaceCluster where
  centerX : ℚ
  centerY : ℚ
  width : ℚ
  height : ℚ
  confidence : ℚ
  pixels : List SkinPixel
deriving DecidableEq

/-- Binary `Math.max` on rationals, written so that the kernel can evaluate it (the
lattice `max` of `ℚ` does not reduce definitionally). -/
def qmax (a b : ℚ) : ℚ := if a ≤ b then b else a

/-- Binary `Math.min` on rationals, kernel-evaluable. -/
def qmin (a b : ℚ) : ℚ := if b ≤ a then b else a

/-! ## ColorClassifier: `getSkinColorConfidence` (lines 169-203) -/

/-- RGB heuristic (lines 173-175): fires with score 0.8. -/
def rgbScore (r g b : ℕ) : ℚ :=
  if r > 95 ∧ g > 40 ∧ b > 20 ∧
      max r (max g b) - min r (min g b) > 15 ∧
      ((r : ℤ) - (g : ℤ)).natAbs > 15 ∧ r > g ∧ r > b
  then 0.8 else 0

/-- Luma of the YCbCr conversion (line 178). -/
def ycbcrY (r g b : ℕ) : ℚ := 0.299 * r + 0.587 * g + 0.114 * b

/-- Blue-difference chroma of the YCbCr conversion (line 179). -/
def ycbcrCb (r g b : ℕ) : ℚ := -0.169 * r - 0.331 * g + 0.5 * b + 128

/-- Red-difference chroma of the YCbCr conversion (line 180). -/
def ycbcrCr (r g b : ℕ) : ℚ := 0.5 * r - 0.419 * g - 0.081 * b + 128

/-- YCbCr heuristic (line 182): fires with score 0.9. -/
def ycbcrScore (r g b : ℕ) : ℚ :=
  if ycbcrY r g b > 80 ∧ 77 ≤ ycbcrCb r g b ∧ ycbcrCb r g b ≤ 127 ∧
      133 ≤ ycbcrCr r g b ∧ ycbcrCr r g b ≤ 173
  then 0.9 else 0

/-- HSV value channel (line 187). -/
def hsvV (r g b : ℕ) : ℚ := (max r (max g b) : ℚ) / 255

/-- HSV saturation channel (line 188), guarded against `max = 0`. -/
def hsvS (r g b : ℕ) : ℚ :=
  let mx := max r (max g b)
  let mn := min r (min g b)
  if mx = 0 then 0 else ((mx : ℚ) - (mn : ℚ)) / (mx : ℚ)

/-- HSV hue in degrees (lines 190-198), including the `h < 0` wrap-around.  The
JavaScript `switch (max)` matches the first case whose value equals `max`, which is the
if-chain below. -/
def hsvH (r g b : ℕ) : ℚ :=
  let mx := max r (max g b)
  let mn := min r (min g b)
  let h : ℚ :=
    if mx ≠ mn then
      if mx = r then ((g : ℚ) - (b : ℚ)) / ((mx : ℚ) - (mn : ℚ)) * 60
      else if mx = g then (2 + ((b : ℚ) - (r : ℚ)) / ((mx : ℚ) - (mn : ℚ))) * 60
      else (4 + ((r : ℚ) - (g : ℚ)) / ((mx : ℚ) - (mn : ℚ))) * 60
    else 0
  if h < 0 then h + 360 else h

/-- HSV heuristic (line 200): fires with score 0.7. -/
def hsvScore (r g b : ℕ) : ℚ :=
  if 0 ≤ hsvH r g b ∧ hsvH r g b ≤ 50 ∧ 0.23 ≤ hsvS r g b ∧ hsvS r g b ≤ 0.68 ∧
      0.35 ≤ hsvV r g b ∧ hsvV r g b ≤ 0.95
  then 0.7 else 0

/-- Per-pixel skin-color confidence (lines 169-203): the maximum of the three
independent heuristic scores. -/
def getSkinColorConfidence (r g b : ℕ) : ℚ :=
  qmax (qmax (rgbScore r g b) (ycbcrScore r g b)) (hsvScore r g b)

/-! ## RegionAggregator: stride-2 sampling (lines 109-127), clustering (lines 205-239)
and the primary-cluster search (lines 130-137) -/

/-- Coordinates visited by the stride-2 scan of lines 109-110: every second pixel in
both axes, rows outermost. -/
def sampledCoords (width height : ℕ) : List (ℕ × ℕ) :=
  (List.range ((height + 1) / 2)).flatMap fun j =>
    (List.range ((width + 1) / 2)).map fun i => (2 * i, 2 * j)

/-- Pass 1 (lines 109-121): read each sampled pixel from the RGBA buffer at
`(y * width + x) * 4`, classify it, and keep it when its confidence exceeds 0.3. -/
def skinPixelsOf (data : List ℕ) (width : ℕ) (height : ℕ) : List SkinPixel :=
  (sampledCoords width height).filterMap fun c =>
    let index := (c.2 * width + c.1) * 4
    let r := data.getD index 0
    let g := data.getD (index + 1) 0
    let b := data.getD (index + 2) 0
    let skinConfidence := getSkinColorConfidence r g b
    if skinConfidence > 0.3 then some ⟨c.1, c.2, skinConfidence⟩ else Option.none

/-- Reduce-with-initial-0 sum, matching `list.reduce((sum, p) => sum + f(p), 0)`. -/
def sumBy (l : List SkinPixel) (f : SkinPixel → ℚ) : ℚ := l.foldl (fun s p => s + f p) 0

/-- Spread minimum, matching `Math.min(...list)` on a nonempty list (the empty default 0
is unreachable: every call site is guarded by a nonemptiness check). -/
def spreadMin (l : List ℕ) : ℕ :=
  match l with
  | [] => 0
  | a :: t => t.foldl min a

/-- Spread maximum, matching `Math.max(...list)` on a nonempty list. -/
def spreadMax (l : List ℕ) : ℕ :=
  match l with
  | [] => 0
  | a :: t => t.foldl max a

/-- clusterSkinPixels (lines 205-239): reduce the whole sample set to a single cluster;
an empty sample list yields no cluster. -/
def clusterSkinPixels (skinPixels : List SkinPixel) : List FaceCluster :=
  if skinPixels.length = 0 then []
  else
    let avgIntensity := sumBy skinPixels (fun p => p.intensity) / (skinPixels.length : ℚ)
    let centerX := sumBy skinPixels (fun p => (p.x : ℚ)) / (skinPixels.length : ℚ)
    let centerY := sumBy skinPixels (fun p => (p.y : ℚ)) / (skinPixels.length : ℚ)
    let minX := spreadMin (skinPixels.map SkinPixel.x)
    let maxX := spreadMax (skinPixels.map SkinPixel.x)
    let minY := spreadMin (skinPixels.map SkinPixel.y)
    let maxY := spreadMax (skinPixels.map SkinPixel.y)
    [{ centerX := centerX, centerY := centerY,
       width := (maxX : ℚ) - (minX : ℚ), height := (maxY : ℚ) - (minY : ℚ),
       confidence := qmin (avgIntensity * ((skinPixels.length : ℚ) / 200)) 1,
       pixels := skinPixels }]

/-- Region-aggregation portion of detectFaceInImageData (lines 109-137): the 50-sample
floor, clustering, and the search for a primary cluster with more than 100 pixels. -/
def aggregate (data : List ℕ) (width : ℕ) (height : ℕ) : Option FaceCluster :=
  let skinPixels := skinPixelsOf data width height
  if skinPixels.length < 50 then Option.none
  else (clusterSkinPixels skinPixels).find? fun cluster =>
    decide (cluster.pixels.length > 100)

/-- Fifty identical samples at (3, 4) with intensity 0.5, for the C8 witness. -/
def ps50 : List SkinPixel := List.replicate 50 ⟨3, 4, 0.5⟩

/-- Uniform 20x10 frame of the skin tone (200, 150, 120): every one of the 50 sampled
pixels qualifies (score 0.9 > 0.3). -/
def frameC1 : List ℕ := (List.replicate 200 [200, 150, 120, 255]).flatten

/-! ## OrientationEstimator: `detectFaceOrientation` (lines 241-270) -/

/-- JavaScript `Math.abs` on a rational, written so that the kernel can evaluate it. -/
def qabs (a : ℚ) : ℚ := if a < 0 then -a else a

/-- Result type for the two ratio divisions of lines 257-258, whose denominators can be
zero: in JavaScript `0/0` is `NaN` and `x/0` for a positive numerator is `Infinity`
(both numerators are `Math.abs` results, hence nonnegative). -/
inductive JsNum where
  | nan
  | inf
  | num (q : ℚ)
deriving DecidableEq

/-- Division as JavaScript evaluates it at the two ratio call sites. -/
def jsDiv (a b : ℚ) : JsNum :=
  if b = 0 then (if a = 0 then JsNum.nan else JsNum.inf) else JsNum.num (a / b)

/-- JavaScript addition lifted to `JsNum`: `NaN` propagates, `Infinity` absorbs. -/
def jsAdd (a b : JsNum) : JsNum :=
  match a, b with
  | JsNum.nan, _ => JsNum.nan
  | _, JsNum.nan => JsNum.nan
  | JsNum.inf, _ => JsNum.inf
  | _, JsNum.inf => JsNum.inf
  | JsNum.num x, JsNum.num y => JsNum.num (x + y)

/-- JavaScript division by the constant 2 lifted to `JsNum`. -/
def jsHalf (a : JsNum) : JsNum :=
  match a with
  | JsNum.nan => JsNum.nan
  | JsNum.inf => JsNum.inf
  | JsNum.num x => JsNum.num (x / 2)

/-- JavaScript `<` against a finite constant: false for `NaN` and for `Infinity`. -/
def jsLtB (a : JsNum) (q : ℚ) : Bool :=
  match a with
  | JsNum.num x => decide (x < q)
  | _ => false

/-- JavaScript `>` against a finite constant: false for `NaN`, true for `Infinity`. -/
def jsGtB (a : JsNum) (q : ℚ) : Bool :=
  match a with
  | JsNum.num x => decide (x > q)
  | JsNum.inf => true
  | JsNum.nan => false

/-- Left band (line 245): pixels with `x < centerX - 20`. -/
def leftPixelsOf (reg : FaceCluster) : List SkinPixel :=
  reg.pixels.filter fun p => decide ((p.x : ℚ) < reg.centerX - 20)

/-- Right band (line 246): pixels with `x > centerX + 20`. -/
def rightPixelsOf (reg : FaceCluster) : List SkinPixel :=
  reg.pixels.filter fun p => decide ((p.x : ℚ) > reg.centerX + 20)

/-- Center band (line 247): pixels with `|x - centerX| <= 20`. -/
def centerPixelsOf (reg : FaceCluster) : List SkinPixel :=
  reg.pixels.filter fun p => decide (qabs ((p.x : ℚ) - reg.centerX) ≤ 20)

/-- Mean intensity of the left band (line 254), guarded by `Math.max(length, 1)`. -/
def leftIntensityOf (reg : FaceCluster) : ℚ :=
  sumBy (leftPixelsOf reg) (fun p => p.intensity) /
    ((max (leftPixelsOf reg).length 1 : ℕ) : ℚ)

/-- Mean intensity of the right band (line 255), guarded by `Math.max(length, 1)`. -/
def rightIntensityOf (reg : FaceCluster) : ℚ :=
  sumBy (rightPixelsOf reg) (fun p => p.intensity) /
    ((max (rightPixelsOf reg).length 1 : ℕ) : ℚ)

/-- Density ratio (line 257): `|leftCount - rightCount| / (leftCount + rightCount)`,
with no guard against a zero denominator. -/
def densityRatioOf (reg : FaceCluster) : JsNum :=
  jsDiv (qabs (((leftPixelsOf reg).length : ℚ) - ((rightPixelsOf reg).length : ℚ)))
    (((leftPixelsOf reg).length : ℚ) + ((rightPixelsOf reg).length : ℚ))

/-- Intensity ratio (line 258): `|leftMean - rightMean| / (leftMean + rightMean)`, with
no guard against a zero denominator. -/
def intensityRatioOf (reg : FaceCluster) : JsNum :=
  jsDiv (qabs (leftIntensityOf reg - rightIntensityOf reg))
    (leftIntensityOf reg + rightIntensityOf reg)

/-- Combined asymmetry score (line 261): `(densityRatio + intensityRatio) / 2`. -/
def asymmetryScoreOf (reg : FaceCluster) : JsNum :=
  jsHalf (jsAdd (densityRatioOf reg) (intensityRatioOf reg))

/-- detectFaceOrientation (lines 241-270): the decision chain over the asymmetry score
and band populations. -/
def detectFaceOrientation (faceRegion : FaceCluster) : FaceOrientation :=
  if jsLtB (asymmetryScoreOf faceRegion) 0.15 &&
      decide (((centerPixelsOf faceRegion).length : ℚ) >
        ((max (leftPixelsOf faceRegion).length (rightPixelsOf faceRegion).length : ℕ) : ℚ)
          * 0.5)
  then FaceOrientation.straight
  else if jsGtB (asymmetryScoreOf faceRegion) 0.25 then
    (if (leftPixelsOf faceRegion).length > (rightPixelsOf faceRegion).length
      then FaceOrientation.right else FaceOrientation.left)
  else FaceOrientation.straight

/-- Concrete region for the C2 witness: centroid x = 50, ten left-band pixels, two
right-band pixels, one center pixel, all of intensity 0.5. -/
def regA : FaceCluster :=
  ⟨50, 0, 0, 0, 0.5,
    List.replicate 10 ⟨20, 0, 0.5⟩ ++ List.replicate 2 ⟨80, 0, 0.5⟩ ++ [⟨50, 0, 0.5⟩]⟩

/-- Region whose pixels all lie within 20 of the centroid x: both side bands are empty,
so both ratio computations divide zero by zero. -/
def regC6 : FaceCluster := ⟨50, 50, 0, 0, 0.5, List.replicate 5 ⟨50, 50, 0.5⟩⟩

/-! ## TemporalSmoother: `temporalSmoothing` (lines 272-311) -/

/-- One entry of the rolling window `recentDetections` (line 273). -/
structure RecentDetection where
  orientation : FaceOrientation
  confidence : ℚ
  timestamp : ℚ
deriving DecidableEq

/-- Exponential recency weight (line 285): `Math.exp(-(now - timestamp) / 200)`. -/
noncomputable def recencyWeight (now : ℚ) (d : RecentDetection) : ℝ :=
  Real.exp (-((now - d.timestamp : ℚ) : ℝ) / 200)

/-- The accumulated per-orientation scores record (lines 289-294). -/
structure OrientationScores where
  straight : ℝ
  left : ℝ
  right : ℝ
  none : ℝ

/-- Score lookup `orientationScores[o]`. -/
def scoreOf (sc : OrientationScores) : FaceOrientation → ℝ
  | FaceOrientation.straight => sc.straight
  | FaceOrientation.left => sc.left
  | FaceOrientation.right => sc.right
  | FaceOrientation.none => sc.none

/-- Score update `orientationScores[o] += v` (line 297). -/
def addScore (sc : OrientationScores) (o : FaceOrientation) (v : ℝ) :
    OrientationScores :=
  match o with
  | FaceOrientation.straight => { sc with straight := sc.straight + v }
  | FaceOrientation.left => { sc with left := sc.left + v }
  | FaceOrientation.right => { sc with right := sc.right + v }
  | FaceOrientation.none => { sc with none := sc.none + v }

/-- The `forEach` accumulation of lines 296-298: each surviving entry contributes its
recency weight times its confidence to its orientation's score. -/
noncomputable def accumulatedScores (now : ℚ) (ds : List RecentDetection) :
    OrientationScores :=
  ds.foldl
    (fun sc d => addScore sc d.orientation (recencyWeight now d * (d.confidence : ℝ)))
    ⟨0, 0, 0, 0⟩

/-- The comparison step of the `reduce` at lines 301-303: keep the accumulator only
when its score is strictly greater, otherwise move to the later entry. -/
noncomputable def pickLater (a b : FaceOrientation × ℝ) : FaceOrientation × ℝ :=
  if a.2 > b.2 then a else b

/-- The `Object.entries(orientationScores).reduce` of lines 301-303, folding over the
fixed property order straight, left, right, none. -/
noncomputable def bestOrientation (s l r n : ℝ) : FaceOrientation :=
  (pickLater (pickLater (pickLater (FaceOrientation.straight, s)
    (FaceOrientation.left, l)) (FaceOrientation.right, r)) (FaceOrientation.none, n)).1

/-- temporalSmoothing (lines 275-311), with the mutable `recentDetections` ref made an
explicit argument and result: returns the updated window, the winning orientation and
the smoothed confidence. -/
noncomputable def temporalSmoothing (recentDetections : List RecentDetection)
    (orientation : FaceOrientation) (confidence : ℚ) (now : ℚ) :
    List RecentDetection × FaceOrientation × ℝ :=
  let recent := (recentDetections ++
      [(⟨orientation, confidence, now⟩ : RecentDetection)]).filter
    fun d => decide (now - d.timestamp < 500)
  let totalWeight := (recent.map (recencyWeight now)).foldl (fun s w => s + w) 0
  let sc := accumulatedScores now recent
  let best := bestOrientation sc.straight sc.left sc.right sc.none
  let smoothedConfidence := scoreOf sc best / totalWeight
  (recent, best, min smoothedConfidence 1)

/-- Claim-side description of the window after a fold: append, then evict by the 500 ms
age cutoff. -/
def survivingWindow (win : List RecentDetection) (d : RecentDetection) (now : ℚ) :
    List RecentDetection :=
  (win ++ [d]).filter fun e => decide (now - e.timestamp < 500)

/-- Claim-side accumulated score of one orientation: the sum of recency weight times
confidence over that orientation's surviving entries. -/
noncomputable def sumWeightedScore (now : ℚ) (ds : List RecentDetection)
    (o : FaceOrientation) : ℝ :=
  ((ds.filter fun d => decide (d.orientation = o)).map
    fun d => recencyWeight now d * (d.confidence : ℝ)).sum

/-- Claim-side total weight over all surviving entries, regardless of orientation. -/
noncomputable def weightTotal (now : ℚ) (ds : List RecentDetection) : ℝ :=
  (ds.map (recencyWeight now)).sum

/-- Claim-side deterministic tie-break: the variant achieving the maximal score that
occurs last in the fixed enumeration order straight, left, right, none. -/
noncomputable def lastMaxOrientation (s l r n : ℝ) : FaceOrientation :=
  if n = max (max (max s l) r) n then FaceOrientation.none
  else if r = max (max s l) r then FaceOrientation.right
  else if l = max s l then FaceOrientation.left
  else FaceOrientation.straight

/-! ## FrameAnalyzer: `detectFaceInImageData` (lines 97-167) -/

/-- One entry of the UI detection history (lines 10-14). -/
structure Detection where
  orientation : FaceOrientation
  confidence : ℝ
  timestamp : ℚ

/-- The component state touched by one frame analysis: the displayed orientation and
confidence, the smoother's rolling window, and the bounded history log. -/
structure DetectorState where
  currentOrientation : FaceOrientation
  confidence : ℝ
  recentDetections : List RecentDetection
  detectionHistory : List Detection

/-- detectFaceInImageData (lines 97-167), with the React state made explicit: when the
region aggregation fails (fewer than 50 samples at line 123, or no primary cluster at
line 133) the displayed result is reset to none/0 and the function returns false
without touching the rolling window; otherwise the orientation is estimated, folded
through `temporalSmoothing`, displayed, and appended to the history (`slice(-9)` plus
the new entry). -/
noncomputable def detectFaceInImageData (st : DetectorState) (data : List ℕ)
    (width height : ℕ) (now : ℚ) : DetectorState × Bool :=
  match aggregate data width height with
  | Option.none =>
      ({ st with currentOrientation := FaceOrientation.none, confidence := 0 }, false)
  | some faceRegion =>
      let orientation := detectFaceOrientation faceRegion
      let detectionConfidence := qmin faceRegion.confidence 1
      let result := temporalSmoothing st.recentDetections orientation
        detectionConfidence now
      ({ currentOrientation := result.2.1,
         confidence := result.2.2,
         recentDetections := result.1,
         detectionHistory :=
           st.detectionHistory.drop (st.detectionHistory.length - 9) ++
             [⟨result.2.1, result.2.2, now⟩] }, true)

theorem qmax_eq_max (a b : ℚ) : qmax a b = max a b := (max_def a b).symm

theorem qmin_eq_min (a b : ℚ) : qmin a b = min a b := by
  unfold qmin
  rcases le_total a b with h | h
  · rcases eq_or_lt_of_le h with rfl | hlt
    · simp
    · rw [if_neg (not_le_of_lt hlt), min_eq_left h]
  · rw [if_pos h, min_eq_right h]

/-- C3: for all byte inputs, `getSkinColorConfidence` is the (pure, deterministic)
maximum of the RGB heuristic (0.8 or 0), the YCbCr heuristic (0.9 or 0) and the HSV
heuristic (0.7 or 0), and its value always lies in [0, 1]. -/
theorem getSkinColorConfidence_spec (r g b : ℕ) :
    getSkinColorConfidence r g b
      = max (max (rgbScore r g b) (ycbcrScore r g b)) (hsvScore r g b) ∧
    0 ≤ getSkinColorConfidence r g b ∧ getSkinColorConfidence r g b ≤ 1 := by
  refine ⟨by rw [getSkinColorConfidence, qmax_eq_max, qmax_eq_max], ?_, ?_⟩ <;>
    · unfold getSkinColorConfidence
      rw [qmax_eq_max, qmax_eq_max]
      unfold rgbScore ycbcrScore hsvScore
      split_ifs <;> norm_num

/-- Witness for C3: evaluation at the concrete skin tone (200, 150, 120), whose YCbCr
heuristic fires, so the score is 0.9; the bounds follow from the theorem. -/
theorem getSkinColorConfidence_spec_w :
    getSkinColorConfidence 200 150 120 = 0.9 ∧
    0 ≤ getSkinColorConfidence 200 150 120 ∧ getSkinColorConfidence 200 150 120 ≤ 1 :=
  ⟨by with_unfolding_all decide, (getSkinColorConfidence_spec 200 150 120).2.1,
    (getSkinColorConfidence_spec 200 150 120).2.2⟩

/-! ### Fold helper lemmas -/

theorem foldl_add_eq {α M : Type*} [AddCommMonoid M] (f : α → M) (l : List α) :
    ∀ a : M, l.foldl (fun s p => s + f p) a = a + (l.map f).sum := by
  induction l with
  | nil => intro a; simp
  | cons p t ih =>
      intro a
      rw [List.foldl_cons, ih, List.map_cons, List.sum_cons, add_assoc]

theorem foldl_min_le_start (t : List ℕ) : ∀ a : ℕ, t.foldl min a ≤ a := by
  induction t with
  | nil => intro a; simp
  | cons b t ih =>
      intro a
      rw [List.foldl_cons]
      exact le_trans (ih (min a b)) (min_le_left a b)

theorem foldl_min_le_mem (t : List ℕ) : ∀ a x : ℕ, x ∈ t → t.foldl min a ≤ x := by
  induction t with
  | nil => intro a x hx; cases hx
  | cons b t ih =>
      intro a x hx
      rcases List.mem_cons.mp hx with rfl | hx
      · exact le_trans (foldl_min_le_start t (min a x)) (min_le_right a x)
      · exact ih (min a b) x hx

theorem foldl_min_mem (t : List ℕ) : ∀ a : ℕ, t.foldl min a = a ∨ t.foldl min a ∈ t := by
  induction t with
  | nil => intro a; exact Or.inl rfl
  | cons b t ih =>
      intro a
      rw [List.foldl_cons]
      rcases ih (min a b) with h | h
      · rcases min_choice a b with hc | hc
        · exact Or.inl (by rw [h, hc])
        · exact Or.inr (by rw [h, hc]; exact List.mem_cons_self b t)
      · exact Or.inr (List.mem_cons_of_mem b h)

theorem foldl_max_ge_start (t : List ℕ) : ∀ a : ℕ, a ≤ t.foldl max a := by
  induction t with
  | nil => intro a; simp
  | cons b t ih =>
      intro a
      rw [List.foldl_cons]
      exact le_trans (le_max_left a b) (ih (max a b))

theorem foldl_max_ge_mem (t : List ℕ) : ∀ a x : ℕ, x ∈ t → x ≤ t.foldl max a := by
  induction t with
  | nil => intro a x hx; cases hx
  | cons b t ih =>
      intro a x hx
      rcases List.mem_cons.mp hx with rfl | hx
      · exact le_trans (le_max_right a x) (foldl_max_ge_start t (max a x))
      · exact ih (max a b) x hx

theorem foldl_max_mem (t : List ℕ) : ∀ a : ℕ, t.foldl max a = a ∨ t.foldl max a ∈ t := by
  induction t with
  | nil => intro a; exact Or.inl rfl
  | cons b t ih =>
      intro a
      rw [List.foldl_cons]
      rcases ih (max a b) with h | h
      · rcases max_choice a b with hc | hc
        · exact Or.inl (by rw [h, hc])
        · exact Or.inr (by rw [h, hc]; exact List.mem_cons_self b t)
      · exact Or.inr (List.mem_cons_of_mem b h)

theorem spreadMin_spec (l : List ℕ) (h : l ≠ []) :
    spreadMin l ∈ l ∧ ∀ x ∈ l, spreadMin l ≤ x := by
  cases l with
  | nil => exact absurd rfl h
  | cons a t =>
      have hdef : spreadMin (a :: t) = t.foldl min a := rfl
      constructor
      · rcases foldl_min_mem t a with h1 | h1
        · rw [hdef, h1]; exact List.mem_cons_self a t
        · rw [hdef]; exact List.mem_cons_of_mem a h1
      · intro x hx
        rcases List.mem_cons.mp hx with rfl | hx
        · rw [hdef]; exact foldl_min_le_start t x
        · rw [hdef]; exact foldl_min_le_mem t a x hx

theorem spreadMax_spec (l : List ℕ) (h : l ≠ []) :
    spreadMax l ∈ l ∧ ∀ x ∈ l, x ≤ spreadMax l := by
  cases l with
  | nil => exact absurd rfl h
  | cons a t =>
      have hdef : spreadMax (a :: t) = t.foldl max a := rfl
      constructor
      · rcases foldl_max_mem t a with h1 | h1
        · rw [hdef, h1]; exact List.mem_cons_self a t
        · rw [hdef]; exact List.mem_cons_of_mem a h1
      · intro x hx
        rcases List.mem_cons.mp hx with rfl | hx
        · rw [hdef]; exact foldl_max_ge_start t x
        · rw [hdef]; exact foldl_max_ge_mem t a x hx

/-- C8: whenever at least 50 qualifying samples are collected, `clusterSkinPixels`
produces exactly one candidate whose centroid is the arithmetic mean of the sample
coordinates, whose width and height are the coordinate ranges (max minus min), and whose
confidence is `min(meanIntensity * (sampleCount / 200), 1)`. -/
theorem clusterSkinPixels_spec (skinPixels : List SkinPixel)
    (h : 50 ≤ skinPixels.length) :
    ∃ c : FaceCluster, clusterSkinPixels skinPixels = [c] ∧
      c.centerX = ((skinPixels.map fun p => (p.x : ℚ)).sum) / (skinPixels.length : ℚ) ∧
      c.centerY = ((skinPixels.map fun p => (p.y : ℚ)).sum) / (skinPixels.length : ℚ) ∧
      (∃ lo hi : ℕ, lo ∈ skinPixels.map SkinPixel.x ∧ hi ∈ skinPixels.map SkinPixel.x ∧
        (∀ v ∈ skinPixels.map SkinPixel.x, lo ≤ v ∧ v ≤ hi) ∧
        c.width = (hi : ℚ) - (lo : ℚ)) ∧
      (∃ lo hi : ℕ, lo ∈ skinPixels.map SkinPixel.y ∧ hi ∈ skinPixels.map SkinPixel.y ∧
        (∀ v ∈ skinPixels.map SkinPixel.y, lo ≤ v ∧ v ≤ hi) ∧
        c.height = (hi : ℚ) - (lo : ℚ)) ∧
      c.confidence =
        min (((skinPixels.map SkinPixel.intensity).sum / (skinPixels.length : ℚ)) *
          ((skinPixels.length : ℚ) / 200)) 1 ∧
      c.pixels = skinPixels := by
  have hne : skinPixels.length ≠ 0 := by omega
  have hl : skinPixels ≠ [] := fun heq => hne (by rw [heq]; rfl)
  have hmx : skinPixels.map SkinPixel.x ≠ [] := by
    simpa using hl
  have hmy : skinPixels.map SkinPixel.y ≠ [] := by
    simpa using hl
  refine ⟨_, by rw [clusterSkinPixels, if_neg hne], ?_, ?_, ?_, ?_, ?_, rfl⟩
  · show sumBy skinPixels (fun p => (p.x : ℚ)) / (skinPixels.length : ℚ) = _
    rw [sumBy, foldl_add_eq, zero_add]
  · show sumBy skinPixels (fun p => (p.y : ℚ)) / (skinPixels.length : ℚ) = _
    rw [sumBy, foldl_add_eq, zero_add]
  · refine ⟨spreadMin (skinPixels.map SkinPixel.x), spreadMax (skinPixels.map SkinPixel.x),
      (spreadMin_spec _ hmx).1, (spreadMax_spec _ hmx).1, fun v hv =>
        ⟨(spreadMin_spec _ hmx).2 v hv, (spreadMax_spec _ hmx).2 v hv⟩, rfl⟩
  · refine ⟨spreadMin (skinPixels.map SkinPixel.y), spreadMax (skinPixels.map SkinPixel.y),
      (spreadMin_spec _ hmy).1, (spreadMax_spec _ hmy).1, fun v hv =>
        ⟨(spreadMin_spec _ hmy).2 v hv, (spreadMax_spec _ hmy).2 v hv⟩, rfl⟩
  · show qmin (sumBy skinPixels (fun p => p.intensity) / (skinPixels.length : ℚ) *
      ((skinPixels.length : ℚ) / 200)) 1 = _
    rw [qmin_eq_min, sumBy, foldl_add_eq, zero_add]

/-- Witness for C8: the theorem applied to the concrete 50-sample set `ps50`, together
with the concrete evaluation of the produced cluster (centroid (3,4), zero extent,
confidence 0.5 * (50/200) = 1/8). -/
theorem clusterSkinPixels_spec_w :
    50 ≤ ps50.length ∧
    (∃ c : FaceCluster, clusterSkinPixels ps50 = [c] ∧
      c.centerX = ((ps50.map fun p => (p.x : ℚ)).sum) / (ps50.length : ℚ) ∧
      c.centerY = ((ps50.map fun p => (p.y : ℚ)).sum) / (ps50.length : ℚ) ∧
      (∃ lo hi : ℕ, lo ∈ ps50.map SkinPixel.x ∧ hi ∈ ps50.map SkinPixel.x ∧
        (∀ v ∈ ps50.map SkinPixel.x, lo ≤ v ∧ v ≤ hi) ∧
        c.width = (hi : ℚ) - (lo : ℚ)) ∧
      (∃ lo hi : ℕ, lo ∈ ps50.map SkinPixel.y ∧ hi ∈ ps50.map SkinPixel.y ∧
        (∀ v ∈ ps50.map SkinPixel.y, lo ≤ v ∧ v ≤ hi) ∧
        c.height = (hi : ℚ) - (lo : ℚ)) ∧
      c.confidence =
        min (((ps50.map SkinPixel.intensity).sum / (ps50.length : ℚ)) *
          ((ps50.length : ℚ) / 200)) 1 ∧
      c.pixels = ps50) ∧
    clusterSkinPixels ps50 = [⟨3, 4, 0, 0, 1/8, ps50⟩] :=
  ⟨by with_unfolding_all decide,
   clusterSkinPixels_spec ps50 (by with_unfolding_all decide),
   by with_unfolding_all decide⟩

theorem skinPixelsOf_zero_dim (data : List ℕ) (width height : ℕ)
    (hz : width = 0 ∨ height = 0) : skinPixelsOf data width height = [] := by
  rcases hz with rfl | rfl <;> simp [skinPixelsOf, sampledCoords]

/-- C1 (amended): `aggregate` returns no region exactly when at most 100 qualifying
samples were collected.  In particular fewer than 50 samples yield no region (the
explicit floor at line 123), but so does any count between 50 and 100, because the
primary-cluster search at line 131 additionally requires more than 100 pixels.  More
than 100 samples always produce a single candidate region, and a zero-width or
zero-height frame yields no region rather than a failure. -/
theorem aggregate_none_iff (data : List ℕ) (width height : ℕ) :
    (aggregate data width height = Option.none ↔
      (skinPixelsOf data width height).length ≤ 100) ∧
    ((skinPixelsOf data width height).length < 50 →
      aggregate data width height = Option.none) ∧
    (100 < (skinPixelsOf data width height).length →
      ∃ c, aggregate data width height = some c ∧
        c.pixels = skinPixelsOf data width height) ∧
    (width = 0 ∨ height = 0 → aggregate data width height = Option.none) := by
  by_cases hlen : (skinPixelsOf data width height).length < 50
  · have hagg : aggregate data width height = Option.none := by
      rw [aggregate, if_pos hlen]
    exact ⟨by rw [hagg]; exact ⟨fun _ => by omega, fun _ => rfl⟩,
      fun _ => hagg, fun h100 => by omega, fun _ => hagg⟩
  · obtain ⟨c, hceq, -, -, -, -, -, hpix⟩ :=
      clusterSkinPixels_spec (skinPixelsOf data width height) (by omega)
    by_cases h100 : 100 < (skinPixelsOf data width height).length
    · have hdec : decide (c.pixels.length > 100) = true :=
        decide_eq_true (by rw [hpix]; exact h100)
      have hagg : aggregate data width height = some c := by
        rw [aggregate]
        rw [if_neg hlen, hceq]
        simp only [List.find?]
        rw [hdec]
      refine ⟨?_, fun h50 => absurd h50 hlen, fun _ => ⟨c, hagg, hpix⟩, fun hz => ?_⟩
      · rw [hagg]
        exact ⟨fun h => by simp at h, fun h => by omega⟩
      · exact absurd (by rw [skinPixelsOf_zero_dim data width height hz]; simp) hlen
    · have hdec : decide (c.pixels.length > 100) = false := by
        rw [hpix]; exact decide_eq_false (by omega)
      have hagg : aggregate data width height = Option.none := by
        rw [aggregate]
        rw [if_neg hlen, hceq]
        simp only [List.find?]
        rw [hdec]
      refine ⟨?_, fun h50 => absurd h50 hlen, fun h => absurd h h100, fun hz => ?_⟩
      · rw [hagg]
        exact ⟨fun _ => by omega, fun _ => rfl⟩
      · exact hagg

/-- Witness for C1's amended theorem: the empty buffer with 4x4 dimensions has no
qualifying sample, so the under-50 branch applies; a 0-width frame hits the degenerate
dimension branch. -/
theorem aggregate_none_iff_w :
    aggregate [] 4 4 = Option.none ∧ aggregate [] 0 6 = Option.none :=
  ⟨(aggregate_none_iff [] 4 4).2.1 (by with_unfolding_all decide),
   (aggregate_none_iff [] 0 6).2.2.2 (Or.inl rfl)⟩

/-- Counterexample to C1 as stated: this frame collects exactly 50 qualifying samples
(*not* fewer than 50), yet the pipeline reports no region, because the primary-cluster
search at line 131 demands more than 100 pixels. -/
theorem aggregate_fifty_samples_no_region :
    50 ≤ (skinPixelsOf frameC1 20 10).length ∧
    aggregate frameC1 20 10 = Option.none := by
  constructor <;> with_unfolding_all decide

theorem qabs_eq_abs (a : ℚ) : qabs a = |a| := by
  unfold qabs
  by_cases h : a < 0
  · rw [if_pos h, abs_of_neg h]
  · rw [if_neg h, abs_of_nonneg (le_of_not_lt h)]

theorem detectFaceOrientation_of_not_gt (reg : FaceCluster)
    (hgt : jsGtB (asymmetryScoreOf reg) 0.25 = false) :
    detectFaceOrientation reg = FaceOrientation.straight := by
  rw [detectFaceOrientation]
  by_cases hA : (jsLtB (asymmetryScoreOf reg) 0.15 &&
      decide (((centerPixelsOf reg).length : ℚ) >
        ((max (leftPixelsOf reg).length (rightPixelsOf reg).length : ℕ) : ℚ) * 0.5)) = true
  · rw [if_pos hA]
  · rw [if_neg hA, if_neg (by simp [hgt])]

/-- C2: the decision table of `detectFaceOrientation`.  When the asymmetry score is the
finite value `q`: score below 0.15 with a sufficiently populated center band gives
Straight; score above 0.25 gives Right when the left band is denser than the right one
and Left otherwise; any score in the dead zone [0.15, 0.25] gives Straight.  When the
left and right bands have exactly equal populations and equal mean intensities, the
result is Straight unconditionally. -/
theorem detectFaceOrientation_decision (reg : FaceCluster) :
    (∀ q : ℚ, asymmetryScoreOf reg = JsNum.num q →
      ((q < 0.15 ∧ ((centerPixelsOf reg).length : ℚ) >
          ((max (leftPixelsOf reg).length (rightPixelsOf reg).length : ℕ) : ℚ) * 0.5 →
        detectFaceOrientation reg = FaceOrientation.straight) ∧
      (q > 0.25 ∧ (leftPixelsOf reg).length > (rightPixelsOf reg).length →
        detectFaceOrientation reg = FaceOrientation.right) ∧
      (q > 0.25 ∧ ¬ (leftPixelsOf reg).length > (rightPixelsOf reg).length →
        detectFaceOrientation reg = FaceOrientation.left) ∧
      (0.15 ≤ q ∧ q ≤ 0.25 →
        detectFaceOrientation reg = FaceOrientation.straight))) ∧
    ((leftPixelsOf reg).length = (rightPixelsOf reg).length ∧
      leftIntensityOf reg = rightIntensityOf reg →
      detectFaceOrientation reg = FaceOrientation.straight) := by
  constructor
  · intro q hq
    refine ⟨?_, ?_, ?_, ?_⟩
    · rintro ⟨h1, h2⟩
      rw [detectFaceOrientation, if_pos ?_]
      rw [hq]
      simp only [jsLtB, Bool.and_eq_true, decide_eq_true_eq]
      exact ⟨h1, h2⟩
    · rintro ⟨h1, h2⟩
      have hlt : ¬ (q < 0.15) := by norm_num at h1 ⊢; linarith
      rw [detectFaceOrientation,
        if_neg (by rw [hq]; simp [jsLtB, hlt]),
        if_pos (by rw [hq]; simp [jsGtB, h1]), if_pos h2]
    · rintro ⟨h1, h2⟩
      have hlt : ¬ (q < 0.15) := by norm_num at h1 ⊢; linarith
      rw [detectFaceOrientation,
        if_neg (by rw [hq]; simp [jsLtB, hlt]),
        if_pos (by rw [hq]; simp [jsGtB, h1]), if_neg h2]
    · rintro ⟨h1, h2⟩
      have hlt : ¬ (q < 0.15) := not_lt_of_le h1
      have hgt : ¬ (q > 0.25) := not_lt_of_le h2
      rw [detectFaceOrientation,
        if_neg (by rw [hq]; simp [jsLtB, hlt]),
        if_neg (by rw [hq]; simp [jsGtB, hgt])]
  · rintro ⟨hcnt, hint⟩
    have hdr : densityRatioOf reg = JsNum.nan ∨ densityRatioOf reg = JsNum.num 0 := by
      rw [densityRatioOf, hcnt, sub_self]
      by_cases h0 : ((rightPixelsOf reg).length : ℚ) + ((rightPixelsOf reg).length : ℚ) = 0
      · exact Or.inl (by rw [jsDiv, if_pos h0, if_pos (by simp [qabs])])
      · exact Or.inr (by rw [jsDiv, if_neg h0]; simp [qabs])
    have hir : intensityRatioOf reg = JsNum.nan ∨ intensityRatioOf reg = JsNum.num 0 := by
      rw [intensityRatioOf, hint, sub_self]
      by_cases h0 : rightIntensityOf reg + rightIntensityOf reg = 0
      · exact Or.inl (by rw [jsDiv, if_pos h0, if_pos (by simp [qabs])])
      · exact Or.inr (by rw [jsDiv, if_neg h0]; simp [qabs])
    refine detectFaceOrientation_of_not_gt reg ?_
    rw [asymmetryScoreOf]
    rcases hdr with h | h <;> rcases hir with h2 | h2 <;>
      rw [h, h2] <;> norm_num [jsAdd, jsHalf, jsGtB]

/-- Witness for C2: on `regA` the asymmetry score evaluates to 1/3 > 0.25 with the left
band denser, and the theorem yields orientation Right (the mirrored convention). -/
theorem detectFaceOrientation_decision_w :
    asymmetryScoreOf regA = JsNum.num (1/3) ∧
    detectFaceOrientation regA = FaceOrientation.right :=
  ⟨by with_unfolding_all decide,
   ((detectFaceOrientation_decision regA).1 (1/3)
      (by with_unfolding_all decide)).2.1
     ⟨by norm_num, by with_unfolding_all decide⟩⟩

/-- Counterexample to C6 as stated: with both side bands empty, the density and
intensity ratio computations of lines 257-258 produce NaN (the unguarded 0/0), not 0.
The returned orientation is nevertheless Straight, because every NaN comparison is
false. -/
theorem ratio_nan_counterexample :
    densityRatioOf regC6 = JsNum.nan ∧ densityRatioOf regC6 ≠ JsNum.num 0 ∧
    intensityRatioOf regC6 = JsNum.nan ∧
    detectFaceOrientation regC6 = FaceOrientation.straight := by
  refine ⟨?_, ?_, ?_, ?_⟩ <;> with_unfolding_all decide

theorem meanIntensity_pos (l : List SkinPixel) (hl : l ≠ [])
    (hpos : ∀ p ∈ l, 0 < p.intensity) :
    0 < sumBy l (fun p => p.intensity) / ((max l.length 1 : ℕ) : ℚ) := by
  rw [sumBy, foldl_add_eq, zero_add]
  apply div_pos
  · apply List.sum_pos
    · intro a ha
      obtain ⟨p, hp, rfl⟩ := List.mem_map.mp ha
      exact hpos p hp
    · simpa using hl
  · exact_mod_cast Nat.lt_of_lt_of_le Nat.zero_lt_one (le_max_right l.length 1)

theorem meanIntensity_nonneg (l : List SkinPixel)
    (hpos : ∀ p ∈ l, 0 ≤ p.intensity) :
    0 ≤ sumBy l (fun p => p.intensity) / ((max l.length 1 : ℕ) : ℚ) := by
  rw [sumBy, foldl_add_eq, zero_add]
  apply div_nonneg
  · apply List.sum_nonneg
    intro a ha
    obtain ⟨p, hp, rfl⟩ := List.mem_map.mp ha
    exact hpos p hp
  · exact_mod_cast Nat.zero_le _

/-- C6 (amended): the ratio computations are finite whenever at least one side band is
populated (for the intensity ratio, provided the region's intensities are positive, as
the pipeline guarantees via the 0.3 floor); when both side bands are empty they are NaN
(0/0 is not guarded), yet the returned orientation is still the well-defined value
Straight because NaN comparisons are all false. -/
theorem ratio_guard_amended (reg : FaceCluster) :
    ((leftPixelsOf reg).length + (rightPixelsOf reg).length ≠ 0 →
      ∃ q : ℚ, densityRatioOf reg = JsNum.num q) ∧
    ((∀ p ∈ reg.pixels, 0 < p.intensity) →
      (leftPixelsOf reg).length + (rightPixelsOf reg).length ≠ 0 →
      ∃ q : ℚ, intensityRatioOf reg = JsNum.num q) ∧
    (leftPixelsOf reg = [] → rightPixelsOf reg = [] →
      densityRatioOf reg = JsNum.nan ∧ intensityRatioOf reg = JsNum.nan ∧
      detectFaceOrientation reg = FaceOrientation.straight) := by
  refine ⟨?_, ?_, ?_⟩
  · intro hne
    rw [densityRatioOf, jsDiv, if_neg (by exact_mod_cast hne)]
    exact ⟨_, rfl⟩
  · intro hpos hne
    have hmeml : ∀ p ∈ leftPixelsOf reg, 0 < p.intensity :=
      fun p hp => hpos p (List.mem_of_mem_filter hp)
    have hmemr : ∀ p ∈ rightPixelsOf reg, 0 < p.intensity :=
      fun p hp => hpos p (List.mem_of_mem_filter hp)
    have hsum : 0 < leftIntensityOf reg + rightIntensityOf reg := by
      by_cases hl : (leftPixelsOf reg).length = 0
      · have hrne : rightPixelsOf reg ≠ [] := by
          intro hnil
          exact hne (by rw [hl, hnil]; rfl)
        have h1 : 0 < rightIntensityOf reg := by
          rw [rightIntensityOf]
          exact meanIntensity_pos _ hrne hmemr
        have h2 : 0 ≤ leftIntensityOf reg := by
          rw [leftIntensityOf]
          exact meanIntensity_nonneg _ (fun p hp => le_of_lt (hmeml p hp))
        linarith
      · have hlne : leftPixelsOf reg ≠ [] :=
          fun hnil => hl (by rw [hnil]; rfl)
        have h1 : 0 < leftIntensityOf reg := by
          rw [leftIntensityOf]
          exact meanIntensity_pos _ hlne hmeml
        have h2 : 0 ≤ rightIntensityOf reg := by
          rw [rightIntensityOf]
          exact meanIntensity_nonneg _ (fun p hp => le_of_lt (hmemr p hp))
        linarith
    rw [intensityRatioOf, jsDiv, if_neg (ne_of_gt hsum)]
    exact ⟨_, rfl⟩
  · intro hL hR
    have hLI : leftIntensityOf reg = 0 := by
      rw [leftIntensityOf, hL]
      simp [sumBy]
    have hRI : rightIntensityOf reg = 0 := by
      rw [rightIntensityOf, hR]
      simp [sumBy]
    have hdr : densityRatioOf reg = JsNum.nan := by
      rw [densityRatioOf, hL, hR]
      norm_num [jsDiv, qabs]
    have hir : intensityRatioOf reg = JsNum.nan := by
      rw [intensityRatioOf, hLI, hRI]
      norm_num [jsDiv, qabs]
    refine ⟨hdr, hir, detectFaceOrientation_of_not_gt reg ?_⟩
    rw [asymmetryScoreOf, hdr, hir]
    rfl

/-- Witness for C6's amended theorem: on `regA` one side band is populated and the
intensities are positive, so both ratios are finite; on `regC6` both side bands are
empty, so both ratios are NaN and the orientation is still Straight. -/
theorem ratio_guard_amended_w :
    (∃ q : ℚ, densityRatioOf regA = JsNum.num q) ∧
    (∃ q : ℚ, intensityRatioOf regA = JsNum.num q) ∧
    (densityRatioOf regC6 = JsNum.nan ∧ intensityRatioOf regC6 = JsNum.nan ∧
      detectFaceOrientation regC6 = FaceOrientation.straight) :=
  ⟨(ratio_guard_amended regA).1 (by with_unfolding_all decide),
   (ratio_guard_amended regA).2.1 (by with_unfolding_all decide)
     (by with_unfolding_all decide),
   (ratio_guard_amended regC6).2.2 (by with_unfolding_all decide)
     (by with_unfolding_all decide)⟩

/-! ### TemporalSmoother helper lemmas -/

theorem foldl_add_sum (l : List ℝ) : l.foldl (fun s w => s + w) 0 = l.sum := by
  have h := foldl_add_eq (fun x : ℝ => x) l 0
  simpa using h

theorem pickLater_snd (a b : FaceOrientation × ℝ) : (pickLater a b).2 = max a.2 b.2 := by
  rw [pickLater]
  split_ifs with h
  · exact (max_eq_left (le_of_lt h)).symm
  · exact (max_eq_right (le_of_not_lt h)).symm

theorem pickLater_or (a b : FaceOrientation × ℝ) :
    pickLater a b = a ∨ pickLater a b = b := by
  rw [pickLater]
  split_ifs
  · exact Or.inl rfl
  · exact Or.inr rfl

theorem scoreOf_addScore (sc : OrientationScores) (o2 o : FaceOrientation) (v : ℝ) :
    scoreOf (addScore sc o2 v) o = scoreOf sc o + (if o2 = o then v else 0) := by
  cases o2 <;> cases o <;> simp [addScore, scoreOf]

theorem sumWeightedScore_cons (now : ℚ) (d : RecentDetection)
    (t : List RecentDetection) (o : FaceOrientation) :
    sumWeightedScore now (d :: t) o =
      (if d.orientation = o then recencyWeight now d * (d.confidence : ℝ) else 0) +
        sumWeightedScore now t o := by
  rw [sumWeightedScore, sumWeightedScore, List.filter_cons]
  by_cases h : d.orientation = o
  · rw [if_pos (decide_eq_true h), List.map_cons, List.sum_cons, if_pos h]
  · rw [if_neg (by simp [h]), if_neg h, zero_add]

theorem scoreOf_accumulatedScores (now : ℚ) (ds : List RecentDetection)
    (o : FaceOrientation) :
    scoreOf (accumulatedScores now ds) o = sumWeightedScore now ds o := by
  have key : ∀ init : OrientationScores,
      scoreOf (ds.foldl (fun sc d => addScore sc d.orientation
        (recencyWeight now d * (d.confidence : ℝ))) init) o =
      scoreOf init o + sumWeightedScore now ds o := by
    induction ds with
    | nil => intro init; simp [sumWeightedScore]
    | cons d t ih =>
        intro init
        rw [List.foldl_cons, ih, scoreOf_addScore, sumWeightedScore_cons]
        ring
  rw [accumulatedScores, key (⟨0, 0, 0, 0⟩ : OrientationScores)]
  cases o <;> simp [scoreOf]

theorem bestOrientation_score (s l r n : ℝ) :
    scoreOf ⟨s, l, r, n⟩ (bestOrientation s l r n) = max (max (max s l) r) n := by
  have hsnd : (pickLater (pickLater (pickLater (FaceOrientation.straight, s)
      (FaceOrientation.left, l)) (FaceOrientation.right, r)) (FaceOrientation.none, n)).2 =
      max (max (max s l) r) n := by
    rw [pickLater_snd, pickLater_snd, pickLater_snd]
  have hb : bestOrientation s l r n = (pickLater (pickLater (pickLater
      (FaceOrientation.straight, s) (FaceOrientation.left, l)) (FaceOrientation.right, r))
      (FaceOrientation.none, n)).1 := rfl
  have hcases : pickLater (pickLater (pickLater (FaceOrientation.straight, s)
      (FaceOrientation.left, l)) (FaceOrientation.right, r)) (FaceOrientation.none, n) =
        (FaceOrientation.straight, s) ∨
      pickLater (pickLater (pickLater (FaceOrientation.straight, s)
        (FaceOrientation.left, l)) (FaceOrientation.right, r)) (FaceOrientation.none, n) =
        (FaceOrientation.left, l) ∨
      pickLater (pickLater (pickLater (FaceOrientation.straight, s)
        (FaceOrientation.left, l)) (FaceOrientation.right, r)) (FaceOrientation.none, n) =
        (FaceOrientation.right, r) ∨
      pickLater (pickLater (pickLater (FaceOrientation.straight, s)
        (FaceOrientation.left, l)) (FaceOrientation.right, r)) (FaceOrientation.none, n) =
        (FaceOrientation.none, n) := by
    rcases pickLater_or (pickLater (pickLater (FaceOrientation.straight, s)
        (FaceOrientation.left, l)) (FaceOrientation.right, r)) (FaceOrientation.none, n)
      with h3 | h3
    · rcases pickLater_or (pickLater (FaceOrientation.straight, s)
          (FaceOrientation.left, l)) (FaceOrientation.right, r) with h2 | h2
      · rcases pickLater_or (FaceOrientation.straight, s) (FaceOrientation.left, l)
          with h1 | h1
        · exact Or.inl (by rw [h3, h2, h1])
        · exact Or.inr (Or.inl (by rw [h3, h2, h1]))
      · exact Or.inr (Or.inr (Or.inl (by rw [h3, h2])))
    · exact Or.inr (Or.inr (Or.inr h3))
  rcases hcases with h | h | h | h <;> rw [hb, h, ← hsnd, h] <;> rfl

theorem bestOrientation_eq_lastMax (s l r n : ℝ) :
    bestOrientation s l r n = lastMaxOrientation s l r n := by
  have h12 : (pickLater (FaceOrientation.straight, s) (FaceOrientation.left, l)).2 =
      max s l := pickLater_snd _ _
  have h123 : (pickLater (pickLater (FaceOrientation.straight, s)
      (FaceOrientation.left, l)) (FaceOrientation.right, r)).2 = max (max s l) r := by
    rw [pickLater_snd, h12]
  rw [bestOrientation, lastMaxOrientation]
  by_cases hn : max (max s l) r > n
  · rw [show pickLater (pickLater (pickLater (FaceOrientation.straight, s)
        (FaceOrientation.left, l)) (FaceOrientation.right, r)) (FaceOrientation.none, n) =
        pickLater (pickLater (FaceOrientation.straight, s) (FaceOrientation.left, l))
          (FaceOrientation.right, r) from by
      rw [pickLater, if_pos (by rw [h123]; exact hn)]]
    rw [if_neg (by rw [max_eq_left (le_of_lt hn)]; exact Ne.symm (ne_of_gt hn))]
    by_cases hr : max s l > r
    · rw [show pickLater (pickLater (FaceOrientation.straight, s)
          (FaceOrientation.left, l)) (FaceOrientation.right, r) =
          pickLater (FaceOrientation.straight, s) (FaceOrientation.left, l) from by
        rw [pickLater, if_pos (by rw [h12]; exact hr)]]
      rw [if_neg (by rw [max_eq_left (le_of_lt hr)]; exact Ne.symm (ne_of_gt hr))]
      by_cases hs : s > l
      · rw [show pickLater (FaceOrientation.straight, s) (FaceOrientation.left, l) =
            (FaceOrientation.straight, s) from by rw [pickLater, if_pos hs]]
        rw [if_neg (by rw [max_eq_left (le_of_lt hs)]; exact Ne.symm (ne_of_gt hs))]
      · rw [show pickLater (FaceOrientation.straight, s) (FaceOrientation.left, l) =
            (FaceOrientation.left, l) from by rw [pickLater, if_neg hs]]
        rw [if_pos (max_eq_right (le_of_not_lt hs)).symm]
    · rw [show pickLater (pickLater (FaceOrientation.straight, s)
          (FaceOrientation.left, l)) (FaceOrientation.right, r) =
          (FaceOrientation.right, r) from by
        rw [pickLater, if_neg (by rw [h12]; exact hr)]]
      rw [if_pos (max_eq_right (le_of_not_lt hr)).symm]
  · rw [show pickLater (pickLater (pickLater (FaceOrientation.straight, s)
        (FaceOrientation.left, l)) (FaceOrientation.right, r)) (FaceOrientation.none, n) =
        (FaceOrientation.none, n) from by
      rw [pickLater, if_neg (by rw [h123]; exact hn)]]
    rw [if_pos (max_eq_right (le_of_not_lt hn)).symm]

theorem temporalSmoothing_eq_of_recent (win : List RecentDetection)
    (o : FaceOrientation) (c now : ℚ) (recent : List RecentDetection)
    (hrec : survivingWindow win ⟨o, c, now⟩ now = recent) :
    temporalSmoothing win o c now =
      (recent,
       bestOrientation (accumulatedScores now recent).straight
         (accumulatedScores now recent).left (accumulatedScores now recent).right
         (accumulatedScores now recent).none,
       min (scoreOf (accumulatedScores now recent)
           (bestOrientation (accumulatedScores now recent).straight
             (accumulatedScores now recent).left (accumulatedScores now recent).right
             (accumulatedScores now recent).none) /
         ((recent.map (recencyWeight now)).foldl (fun s w => s + w) 0)) 1) := by
  subst hrec
  rfl

theorem survivingWindow_nil (o : FaceOrientation) (c t0 : ℚ) :
    survivingWindow [] ⟨o, c, t0⟩ t0 = [⟨o, c, t0⟩] := by
  rw [survivingWindow, List.nil_append, List.filter_cons,
    if_pos (decide_eq_true (show t0 - t0 < 500 by norm_num)), List.filter_nil]

/-- C4: the fold keeps exactly the surviving (younger than 500 ms) entries, the
returned orientation achieves the highest accumulated weighted score (weights
`exp(-(now - timestamp)/200)` times confidences, summed per variant), and the returned
confidence is the winning variant's accumulated score divided by the total weight over
all surviving entries, capped at 1. -/
theorem temporalSmoothing_consensus (win : List RecentDetection)
    (o : FaceOrientation) (c now : ℚ) :
    (temporalSmoothing win o c now).1 = survivingWindow win ⟨o, c, now⟩ now ∧
    (∀ o2 : FaceOrientation,
      sumWeightedScore now (survivingWindow win ⟨o, c, now⟩ now) o2 ≤
        sumWeightedScore now (survivingWindow win ⟨o, c, now⟩ now)
          (temporalSmoothing win o c now).2.1) ∧
    (temporalSmoothing win o c now).2.2 =
      min (sumWeightedScore now (survivingWindow win ⟨o, c, now⟩ now)
          (temporalSmoothing win o c now).2.1 /
        weightTotal now (survivingWindow win ⟨o, c, now⟩ now)) 1 := by
  have h1 : (temporalSmoothing win o c now).1 = survivingWindow win ⟨o, c, now⟩ now := rfl
  have hbest : (temporalSmoothing win o c now).2.1 =
      bestOrientation
        (accumulatedScores now (survivingWindow win ⟨o, c, now⟩ now)).straight
        (accumulatedScores now (survivingWindow win ⟨o, c, now⟩ now)).left
        (accumulatedScores now (survivingWindow win ⟨o, c, now⟩ now)).right
        (accumulatedScores now (survivingWindow win ⟨o, c, now⟩ now)).none := rfl
  have hconf : (temporalSmoothing win o c now).2.2 =
      min (scoreOf (accumulatedScores now (survivingWindow win ⟨o, c, now⟩ now))
          (temporalSmoothing win o c now).2.1 /
        (((survivingWindow win ⟨o, c, now⟩ now).map (recencyWeight now)).foldl
          (fun s w => s + w) 0)) 1 := rfl
  refine ⟨h1, ?_, ?_⟩
  · intro o2
    rw [← scoreOf_accumulatedScores, ← scoreOf_accumulatedScores, hbest]
    have hbs : scoreOf (accumulatedScores now (survivingWindow win ⟨o, c, now⟩ now))
        (bestOrientation
          (accumulatedScores now (survivingWindow win ⟨o, c, now⟩ now)).straight
          (accumulatedScores now (survivingWindow win ⟨o, c, now⟩ now)).left
          (accumulatedScores now (survivingWindow win ⟨o, c, now⟩ now)).right
          (accumulatedScores now (survivingWindow win ⟨o, c, now⟩ now)).none) =
        max (max (max
          (accumulatedScores now (survivingWindow win ⟨o, c, now⟩ now)).straight
          (accumulatedScores now (survivingWindow win ⟨o, c, now⟩ now)).left)
          (accumulatedScores now (survivingWindow win ⟨o, c, now⟩ now)).right)
          (accumulatedScores now (survivingWindow win ⟨o, c, now⟩ now)).none :=
      bestOrientation_score _ _ _ _
    rw [hbs]
    cases o2 with
    | straight =>
        exact le_trans (le_trans (le_max_left _ _) (le_max_left _ _)) (le_max_left _ _)
    | left =>
        exact le_trans (le_trans (le_max_right _ _) (le_max_left _ _)) (le_max_left _ _)
    | right => exact le_trans (le_max_right _ _) (le_max_left _ _)
    | none => exact le_max_right _ _
  · rw [hconf, scoreOf_accumulatedScores, foldl_add_sum, weightTotal]

/-- Witness for C4: the theorem instantiated at a single concrete fold. -/
theorem temporalSmoothing_consensus_w :
    (temporalSmoothing [] FaceOrientation.left 0.9 0).2.2 =
      min (sumWeightedScore 0 (survivingWindow [] ⟨FaceOrientation.left, 0.9, 0⟩ 0)
          (temporalSmoothing [] FaceOrientation.left 0.9 0).2.1 /
        weightTotal 0 (survivingWindow [] ⟨FaceOrientation.left, 0.9, 0⟩ 0)) 1 :=
  (temporalSmoothing_consensus [] FaceOrientation.left 0.9 0).2.2

/-- C5: after every fold, each entry remaining in the window is younger than 500 ms
relative to `now`, and entries at least 500 ms old contribute nothing: folding over a
window stripped of its stale entries produces the identical window, orientation and
confidence. -/
theorem temporalSmoothing_eviction (win : List RecentDetection)
    (o : FaceOrientation) (c now : ℚ) :
    (∀ e ∈ (temporalSmoothing win o c now).1, now - e.timestamp < 500) ∧
    temporalSmoothing (win.filter fun d => decide (now - d.timestamp < 500)) o c now =
      temporalSmoothing win o c now := by
  constructor
  · intro e he
    have he2 : e ∈ (win ++ [(⟨o, c, now⟩ : RecentDetection)]).filter
        (fun d => decide (now - d.timestamp < 500)) := he
    exact of_decide_eq_true (List.mem_filter.mp he2).2
  · have hfil : ((win.filter fun d => decide (now - d.timestamp < 500)) ++
        [(⟨o, c, now⟩ : RecentDetection)]).filter
          (fun d => decide (now - d.timestamp < 500)) =
        (win ++ [(⟨o, c, now⟩ : RecentDetection)]).filter
          (fun d => decide (now - d.timestamp < 500)) := by
      rw [List.filter_append, List.filter_append, List.filter_filter]
      congr 1
      simp only [Bool.and_self]
    simp only [temporalSmoothing]
    rw [hfil]

/-- Witness for C5: a detection folded at t0 = 0 is no longer in the window after a
fold at t0 + 600 (its age 600 ms fails the eviction invariant). -/
theorem temporalSmoothing_eviction_w :
    (⟨FaceOrientation.left, 0.9, 0⟩ : RecentDetection) ∉
      (temporalSmoothing [⟨FaceOrientation.left, 0.9, 0⟩]
        FaceOrientation.straight 0.5 600).1 := by
  intro hmem
  have h := (temporalSmoothing_eviction [⟨FaceOrientation.left, 0.9, 0⟩]
    FaceOrientation.straight 0.5 600).1 _ hmem
  norm_num at h

/-- C9: folding the single detection (Left, 0.9) at time t0 into an empty window with
`now = t0` returns orientation Left with confidence exactly 0.9: the single entry has
weight exp(0) = 1 and the weight ratio is 1. -/
theorem temporalSmoothing_single_left (t0 : ℚ) :
    temporalSmoothing [] FaceOrientation.left 0.9 t0 =
      ([⟨FaceOrientation.left, 0.9, t0⟩], FaceOrientation.left, (0.9 : ℝ)) := by
  have hw : recencyWeight t0 ⟨FaceOrientation.left, 0.9, t0⟩ = 1 := by
    have hz : t0 - (⟨FaceOrientation.left, (0.9 : ℚ), t0⟩ : RecentDetection).timestamp
        = 0 := sub_self t0
    rw [recencyWeight, hz]
    norm_num [Real.exp_zero]
  rw [temporalSmoothing_eq_of_recent [] FaceOrientation.left 0.9 t0 _
    (survivingWindow_nil FaceOrientation.left 0.9 t0)]
  have hsc : accumulatedScores t0 [⟨FaceOrientation.left, 0.9, t0⟩] =
      ⟨0, (0.9 : ℝ), 0, 0⟩ := by
    rw [accumulatedScores, List.foldl_cons, List.foldl_nil, hw]
    simp [addScore]
  rw [hsc]
  have hbest : bestOrientation 0 (0.9 : ℝ) 0 0 = FaceOrientation.left := by
    have hm1 : max (0 : ℝ) 0.9 = 0.9 := max_eq_right (by norm_num)
    have hm2 : max (max (0 : ℝ) 0.9) 0 = 0.9 := by rw [hm1]; exact max_eq_left (by norm_num)
    have hm3 : max (max (max (0 : ℝ) 0.9) 0) 0 = 0.9 := by
      rw [hm2]; exact max_eq_left (by norm_num)
    rw [bestOrientation_eq_lastMax, lastMaxOrientation,
      if_neg (by rw [hm3]; norm_num), if_neg (by rw [hm2]; norm_num),
      if_pos hm1.symm]
  dsimp only
  rw [hbest, List.map_cons, List.map_nil, List.foldl_cons, List.foldl_nil, hw]
  simp only [scoreOf]
  norm_num

/-- Witness for C9: the theorem applied at the concrete instant t0 = 0. -/
theorem temporalSmoothing_single_left_w :
    temporalSmoothing [] FaceOrientation.left 0.9 0 =
      ([⟨FaceOrientation.left, 0.9, 0⟩], FaceOrientation.left, (0.9 : ℝ)) :=
  temporalSmoothing_single_left 0

/-- C10: the `reduce` tie-break is deterministic, a function of the accumulated scores
alone: the winner is the variant achieving the maximal score that occurs last in the
fixed enumeration order straight, left, right, none.  In particular folding a
confidence-0 detection into an empty window (all scores 0, a four-way tie) returns
orientation none. -/
theorem temporalSmoothing_tie_break :
    (∀ s l r n : ℝ, bestOrientation s l r n = lastMaxOrientation s l r n) ∧
    (∀ (o : FaceOrientation) (now : ℚ),
      (temporalSmoothing [] o 0 now).2.1 = FaceOrientation.none) := by
  refine ⟨bestOrientation_eq_lastMax, fun o now => ?_⟩
  rw [temporalSmoothing_eq_of_recent [] o 0 now _ (survivingWindow_nil o 0 now)]
  have hsc : accumulatedScores now [⟨o, 0, now⟩] = ⟨0, 0, 0, 0⟩ := by
    rw [accumulatedScores, List.foldl_cons, List.foldl_nil]
    cases o <;> simp [addScore]
  dsimp only
  rw [hsc]
  rw [bestOrientation_eq_lastMax, lastMaxOrientation, if_pos (by simp)]

/-- Witness for C10: the tie-break characterization applied at the all-zero score tie,
and the concrete confidence-0 fold. -/
theorem temporalSmoothing_tie_break_w :
    bestOrientation 0 0 0 0 = lastMaxOrientation 0 0 0 0 ∧
    (temporalSmoothing [] FaceOrientation.straight 0 0).2.1 = FaceOrientation.none :=
  ⟨temporalSmoothing_tie_break.1 0 0 0 0,
   temporalSmoothing_tie_break.2 FaceOrientation.straight 0⟩

/-- C7: whenever the region aggregation finds no region, the frame analysis resets the
displayed result to orientation none with confidence 0 and returns false, folding
nothing into the rolling window: the window (and the history log) are exactly what they
were before the failed frame. -/
theorem failed_frame_effect (st : DetectorState) (data : List ℕ)
    (width height : ℕ) (now : ℚ) (h : aggregate data width height = Option.none) :
    detectFaceInImageData st data width height now =
      ({ st with currentOrientation := FaceOrientation.none, confidence := 0 },
        false) ∧
    (detectFaceInImageData st data width height now).1.recentDetections =
      st.recentDetections ∧
    (detectFaceInImageData st data width height now).1.detectionHistory =
      st.detectionHistory := by
  have heq : detectFaceInImageData st data width height now =
      ({ st with currentOrientation := FaceOrientation.none, confidence := 0 },
        false) := by
    rw [detectFaceInImageData, h]
  exact ⟨heq, by rw [heq], by rw [heq]⟩

/-- Witness for C7: a frame with no pixel data yields no region, and the analysis on a
concrete prior state resets the display while leaving window and history untouched. -/
theorem failed_frame_effect_w :
    detectFaceInImageData ⟨FaceOrientation.straight, 1, [], []⟩ [] 0 0 0 =
      ({ (⟨FaceOrientation.straight, 1, [], []⟩ : DetectorState) with
          currentOrientation := FaceOrientation.none, confidence := 0 }, false) ∧
    (detectFaceInImageData ⟨FaceOrientation.straight, 1, [], []⟩ [] 0 0
        0).1.recentDetections = [] ∧
    (detectFaceInImageData ⟨FaceOrientation.straight, 1, [], []⟩ [] 0 0
        0).1.detectionHistory = [] :=
  failed_frame_effect ⟨FaceOrientation.straight, 1, [], []⟩ [] 0 0 0
    (by with_unfolding_all decide)

end Liveness
